import Mathlib

/-!
Shallow embedding of `src/solidlsp/language_servers/csharp_language_server.py`
(the C# language-server supervisor) together with models of the supervisor
behaviour that the specification describes for components whose code is not
part of this repository snapshot (the adaptive-timeout request forwarder and
the restart-and-retry coordinator).

Conventions:
* Python strings are Lean `String`s; the Python operations `startswith`,
  `endswith` and the `in` substring test are modelled on the character lists
  of the strings (`pyStartsWith`, `pyEndsWith`, `pyContains`), which agree
  with Python's semantics character for character.
* File-system paths are modelled as lists of name components.  `os.listdir`
  returns the entry names of a directory, which become the components; the
  paths produced by `os.path.join(dir, item)` are the component list of `dir`
  with `item` appended.  A directory that raises `PermissionError`/`OSError`
  on `os.listdir` is modelled with listing `none`.
* Fallible Python code (raising exceptions) is modelled with `Except String`
  carrying the exception message.
-/

set_option maxRecDepth 8000

namespace CSharpLS

/-- Python `s.startswith(p)`: `p`'s characters are a prefix of `s`'s. -/
def pyStartsWith (s p : String) : Bool :=
  p.toList.isPrefixOf s.toList

/-- Python `s.endswith(p)`: `p`'s characters are a suffix of `s`'s. -/
def pyEndsWith (s p : String) : Bool :=
  p.toList.isSuffixOf s.toList

/-- Substring test on character lists (Python `needle in haystack`). -/
def charsContains (n : List Char) : List Char → Bool
  | [] => n.isEmpty
  | c :: t => n.isPrefixOf (c :: t) || charsContains n t

/-- Python `needle in s` (substring containment). -/
def pyContains (needle s : String) : Bool :=
  charsContains needle.toList s.toList

/-- A node of the modelled file system: a file, or a directory with its
`os.listdir` listing (`none` when listing raises `PermissionError`/`OSError`). -/
inductive FSNode where
  | file (name : String)
  | dir (name : String) (listing : Option (List FSNode))
deriving Repr

mutual

/-- Size measure of a file-system node, for termination of the scan. -/
def nodeWeight : FSNode → Nat
  | .file _ => 1
  | .dir _ none => 1
  | .dir _ (some l) => 1 + listWeight l

/-- Size measure of a listing. -/
def listWeight : List FSNode → Nat
  | [] => 0
  | e :: es => nodeWeight e + listWeight es

end

mutual

/-- All file paths under a node (relative to the node's parent), with no
filtering at all: this is what "exists anywhere under the root" means.
Contents of unlistable directories are unknown and contribute nothing. -/
def allFilesNode (p : List String) : FSNode → List (List String)
  | .file n => [p ++ [n]]
  | .dir _ none => []
  | .dir n (some l) => allFilesList (p ++ [n]) l

/-- All file paths under each node of a listing. -/
def allFilesList (p : List String) : List FSNode → List (List String)
  | [] => []
  | e :: es => allFilesNode p e ++ allFilesList p es

end

/-- An entry of the scan's work queue: the directory's path together with its
listing (`queue` in `breadth_first_file_scan`). -/
structure QItem where
  path : List String
  listing : Option (List FSNode)
deriving Repr

/-- Weight of a queue item. -/
def itemWeight (q : QItem) : Nat :=
  match q.listing with
  | none => 1
  | some l => 1 + listWeight l

/-- Weight of the whole queue. -/
def queueWeight : List QItem → Nat
  | [] => 0
  | it :: rest => itemWeight it + queueWeight rest

/-- The files yielded while iterating over one directory's `os.listdir`:
entries whose name starts with `"."` are skipped (`if item.startswith(".")`),
directories are not yielded, and each yielded path is
`os.path.join(current_dir, item)`. -/
def stepFiles (path : List String) (entries : List FSNode) : List (List String) :=
  entries.filterMap fun e =>
    match e with
    | .file n => if pyStartsWith n "." then none else some (path ++ [n])
    | .dir _ _ => none

/-- The subdirectories appended to the queue while iterating over one
directory's `os.listdir`: entries whose name starts with `"."` are skipped,
files are not enqueued.  (The Python loop interleaves the `yield`s and the
`queue.append`s in a single pass; since files only ever go to the output and
directories only ever go to the queue, the two projections are faithful.) -/
def stepDirs (path : List String) (entries : List FSNode) : List QItem :=
  entries.filterMap fun e =>
    match e with
    | .file _ => none
    | .dir n l => if pyStartsWith n "." then none else some ⟨path ++ [n], l⟩

/-- The `while queue:` loop of `breadth_first_file_scan`: pop the first
directory, skip it entirely if its listing raises (`except (PermissionError,
OSError): pass`), otherwise yield its non-hidden files and append its
non-hidden subdirectories to the back of the queue. -/
def bfsAux : List QItem → List (List String)
  | [] => []
  | ⟨_, none⟩ :: rest => bfsAux rest
  | ⟨p, some entries⟩ :: rest =>
      stepFiles p entries ++ bfsAux (rest ++ stepDirs p entries)
termination_by q => queueWeight q
decreasing_by
  · simp [queueWeight, itemWeight]
  · have happ : ∀ a b : List QItem, queueWeight (a ++ b) = queueWeight a + queueWeight b := by
      intro a b
      induction a with
      | nil => simp [queueWeight]
      | cons it rest ih => simp [queueWeight, ih]; omega
    have hstep : queueWeight (stepDirs p entries) ≤ listWeight entries := by
      induction entries with
      | nil => simp [stepDirs, queueWeight, listWeight]
      | cons e es ih =>
        cases e with
        | file n =>
          simp [stepDirs, List.filterMap] at ih ⊢
          simp [listWeight, nodeWeight]
          omega
        | dir n l =>
          by_cases h : pyStartsWith n "."
          · simp [stepDirs, List.filterMap, h] at ih ⊢
            simp [listWeight]
            omega
          · simp [stepDirs, List.filterMap, h] at ih ⊢
            cases l with
            | none => simp [queueWeight, itemWeight, listWeight, nodeWeight]; omega
            | some l' => simp [queueWeight, itemWeight, listWeight, nodeWeight]; omega
    simp [happ, queueWeight, itemWeight]
    omega

/-- `breadth_first_file_scan(root_dir)`: breadth-first scan of the files
under the root directory, starting from the queue `[root_dir]`. -/
def breadth_first_file_scan (rootPath : List String) (listing : Option (List FSNode)) :
    List (List String) :=
  bfsAux [⟨rootPath, listing⟩]

/-- `filename.endswith(ext)` for a scanned path, where `filename` is the
`os.path.join` of the components.  Because the extensions used (`".sln"`,
`".csproj"`) contain no path separator, the joined string ends with the
extension exactly when its final name component does. -/
def pathEndsWith (p : List String) (ext : String) : Bool :=
  match p.getLast? with
  | some n => pyEndsWith n ext
  | none => false

/-- The `for filename in breadth_first_file_scan(root_dir):` loop of
`find_solution_or_project_file`, with the `csproj_file` accumulator.
The first file ending in `".sln"` is returned immediately (`sln_file` is set
and the `if sln_file: return sln_file` fires on the same iteration); the
first file ending in `".csproj"` is remembered and returned after the loop
if no `".sln"` file ever appears. -/
def findLoop : List (List String) → Option (List String) → Option (List String)
  | [], csproj_file => csproj_file
  | f :: rest, csproj_file =>
    if pathEndsWith f ".sln" then some f
    else if pathEndsWith f ".csproj" && csproj_file.isNone then findLoop rest (some f)
    else findLoop rest csproj_file

/-- `find_solution_or_project_file(root_dir)`. -/
def find_solution_or_project_file (rootPath : List String)
    (listing : Option (List FSNode)) : Option (List String) :=
  findLoop (breadth_first_file_scan rootPath listing) none

/-- The string of a component path (`os.path.join` repeatedly, POSIX
separator, no absolute or trailing-slash components). -/
def joinPath : List String → String
  | [] => ""
  | [n] => n
  | n :: rest => n ++ "/" ++ joinPath rest

/-- Python truthiness of the `solution_or_project` value (an `Optional[str]`):
`None` and the empty string are falsy. -/
def pyTruthyOptPath : Option (List String) → Bool
  | none => false
  | some p => joinPath p != ""

/-- A JSON value appearable in the `workspace/configuration` response list:
`None`/`null`, a boolean, a string, or a number (`4` for tab settings). -/
inductive ConfigValue where
  | null
  | bool (b : Bool)
  | str (s : String)
  | num (n : Nat)
deriving Repr, DecidableEq

/-- A requested configuration item; the handler consults only
`item.get("section", "")`, so only that field is modelled (`none` models a
dict without the `"section"` key). -/
structure ConfigItem where
  sectionField : Option String
deriving Repr, DecidableEq

/-- The branch cascade of `handle_workspace_configuration` on the settings
section name `s`, translated branch for branch. -/
def configAnswerFor (solution_or_project : Option (List String)) (s : String) :
    ConfigValue :=
  if s = "csharp.solution" then
    match solution_or_project with
    | some p => if joinPath p != "" then .str (joinPath p) else .null
    | none => .null
  else if pyStartsWith s "dotnet" || pyStartsWith s "csharp" then
    if pyContains "enable" s || pyContains "show" s || pyContains "suppress" s
        || pyContains "navigate" s then
      .bool false
    else if pyContains "scope" s then
      if pyContains "analyzer_diagnostics_scope" s then .str "openFiles"
      else if pyContains "compiler_diagnostics_scope" s then .str "openFiles"
      else .str "openFiles"
    else if s = "dotnet_member_insertion_location" then
      .str "with_other_members_of_the_same_kind"
    else if s = "dotnet_property_generation_behavior" then
      .str "prefer_throwing_properties"
    else if pyContains "location" s || pyContains "behavior" s then .null
    else .null
  else if s = "tab_width" || s = "indent_size" then .num 4
  else if s = "insert_final_newline" then .bool true
  else .null

/-- The per-item body of the `for item in items:` loop
(`section = item.get("section", "")` followed by the cascade). -/
def configAnswer (solution_or_project : Option (List String)) (item : ConfigItem) :
    ConfigValue :=
  configAnswerFor solution_or_project (item.sectionField.getD "")

/-- `handle_workspace_configuration(params)`: the loop body appends exactly
one value per requested item (every branch of the cascade performs exactly
one `result.append`), so the loop is a `map` over the items. -/
def handle_workspace_configuration (solution_or_project : Option (List String))
    (items : List ConfigItem) : List ConfigValue :=
  items.map (configAnswer solution_or_project)

/-- The `required_capabilities` list of `_start_server`. -/
def required_capabilities : List String :=
  ["textDocumentSync", "definitionProvider", "referencesProvider", "documentSymbolProvider"]

/-- The observable actions `_start_server` performs after a successful
capability check, in program order. -/
inductive StartAction where
  | notifyInitialized          -- `self.server.notify.initialized({})`
  | setInitializationComplete  -- `self.initialization_complete.set()`
  | setCompletionsAvailable    -- `self.completions_available.set()`
deriving Repr, DecidableEq

/-- The tail of `_start_server` from the capability verification on:
`capabilities` is the key set of `init_response.get("capabilities", {})`.
`missing` collects the required capabilities absent from it; a non-empty
`missing` raises `RuntimeError` with the message below, otherwise the
initialized notification is sent and the ready events are set. -/
def finishStartup (capabilities : List String) : Except String (List StartAction) :=
  let missing := required_capabilities.filter (fun cap => !(capabilities.contains cap))
  if missing.isEmpty then
    .ok [.notifyInitialized, .setInitializationComplete, .setCompletionsAvailable]
  else
    .error ("Language server is missing required capabilities: "
      ++ String.intercalate ", " missing
      ++ ". Initialization failed. Please ensure csharp-ls is installed and compatible.")

/-- The csharp-ls specific `initializationOptions` payload. -/
structure CSharpInitializationOptions where
  solution : String
  applyFormattingOptions : Bool
deriving Repr, DecidableEq

/-- The initialize params, restricted to the fields the claims are about;
the remaining fields (URIs, process id, the fixed capability-declaration
payload) are constants or derived values with no bearing on the claims. -/
structure InitializeParamsModel where
  rootPath : String
  initializationOptions : Option CSharpInitializationOptions
deriving Repr, DecidableEq

/-- `_get_initialize_params`: the `initializationOptions` key is added only
under `if self.solution_or_project:` (Python truthiness), with
`csharp.solution` set to the discovered path and
`applyFormattingOptions = True`. -/
def _get_initialize_params (repository_root_path : String)
    (solution_or_project : Option (List String)) : InitializeParamsModel :=
  { rootPath := repository_root_path,
    initializationOptions :=
      match solution_or_project with
      | some p => if joinPath p != "" then some ⟨joinPath p, true⟩ else none
      | none => none }

/-- `shutil.which("csharp-ls")` resolution in `_ensure_server_installed`:
`none` models an unresolvable binary, in which case `SolidLSPException` is
raised with the message below; otherwise the path is returned. -/
def _ensure_server_installed (whichResult : Option String) : Except String String :=
  match whichResult with
  | none => .error "csharp-ls not found in PATH. Ensure it's installed globally via 'dotnet tool install --global csharp-ls'."
  | some p => .ok p

/-- The observable steps of `CSharpLanguageServer.__init__`, in program
order.  `superInit` stores the `ProcessLaunchInfo`; no subprocess is spawned
during construction (the spawn happens later, in `_start_server`), so no
spawn event exists among them. -/
inductive ConstructionEvent where
  | whichLookup            -- `shutil.which` inside `_ensure_server_installed`
  | findSolutionOrProject  -- `find_solution_or_project_file(repository_root_path)`
  | createLogDir           -- `log_dir.mkdir(...)`
  | buildCommand           -- `cmd = [csharp_ls_path, "--logLevel trace"]`
  | superInit              -- `super().__init__(...)` (stores launch info only)
  | spawnSubprocess        -- never performed by `__init__`
deriving Repr, DecidableEq

/-- The state a successful construction leaves behind. -/
structure ConstructedServer where
  csharp_ls_path : String
  solution_or_project : Option (List String)
  cmd : List String
deriving Repr, DecidableEq

/-- `CSharpLanguageServer.__init__`: `_ensure_server_installed` runs first
and its exception aborts construction before anything else happens; on
success the solution/project discovery, log-dir creation, command
construction and base-class initialization follow in order. -/
def csharp_init (whichResult : Option String) (rootPath : List String)
    (listing : Option (List FSNode)) :
    List ConstructionEvent × Except String ConstructedServer :=
  match _ensure_server_installed whichResult with
  | .error msg => ([.whichLookup], .error msg)
  | .ok p =>
      let sol := find_solution_or_project_file rootPath listing
      ([.whichLookup, .findSolutionOrProject, .createLogDir, .buildCommand, .superInit],
       .ok { csharp_ls_path := p, solution_or_project := sol,
             cmd := [p, "--logLevel trace"] })

/-- Modelled from the spec: the `TimeoutWindow` of the RequestForwarder
(§4.5); the forwarding layer (`SolidLanguageServer` base class) is not part
of this repository snapshot.  `deadline` is the `deadline-timestamp`,
`none` once cleared. -/
structure TimeoutWindow where
  deadline : Option Nat
deriving Repr, DecidableEq

/-- Modelled from the spec: "On every (re)spawn, a TimeoutWindow deadline is
set to now + first-request grace period." -/
def windowOnSpawn (now gracePeriod : Nat) : TimeoutWindow :=
  ⟨some (now + gracePeriod)⟩

/-- Modelled from the spec: "For any request issued before that deadline,
the effective timeout is the larger of the caller-supplied timeout and the
remaining grace time; once the deadline passes, TimeoutWindow is cleared and
subsequent requests use the caller's timeout unmodified."  Returns the
effective timeout together with the window state after the request. -/
def forwardTimeout (w : TimeoutWindow) (now callerTimeout : Nat) : Nat × TimeoutWindow :=
  match w.deadline with
  | some d => if now < d then (max callerTimeout (d - now), w) else (callerTimeout, ⟨none⟩)
  | none => (callerTimeout, ⟨none⟩)

/-- Request outcome at the transport layer. -/
inductive Outcome where
  | ok
  | transportError
deriving Repr, DecidableEq

/-- Modelled from the spec: `WatchdogState` and `RetryAttemptState` (§3,
§4.6); the FailureWatchdog/RetryCoordinator code is not part of this
repository snapshot.  `tripped` = signature-seen, `attemptsRemaining` ∈
{0, 1} = automatic-restart budget. -/
structure RetryState where
  tripped : Bool
  attemptsRemaining : Nat
deriving Repr, DecidableEq

/-- Modelled from the spec: the state after every successful spawn —
`Armed`, watchdog flag reset, retry budget reset to 1. -/
def armedState : RetryState :=
  ⟨false, 1⟩

/-- Modelled from the spec: the background diagnostic-stream worker matches
each line against the one fixed fatal-failure pattern and trips the
watchdog on a match (idempotent if already tripped). -/
def watchdogOnLine (signatureMatches : String → Bool) (s : RetryState) (line : String) :
    RetryState :=
  if signatureMatches line then { s with tripped := true } else s

/-- Outcome of handling one originating request. -/
structure ForwardResult where
  response : Except Unit Unit  -- `.error ()` = `TransportError` propagated to the caller
  restarts : Nat
  final : RetryState
deriving Repr

/-- Modelled from the spec: the RetryCoordinator protocol (§4.6) for one
originating request.  A first-attempt transport error with the watchdog
tripped and the retry budget unconsumed triggers stop → respawn → single
retry; a successful respawn resets the state to `Armed` for the new
generation; a failed respawn leaves the budget consumed; in every other
case the transport error propagates with no restart. -/
def handleRequest (s : RetryState) (firstAttempt : Outcome) (spawnSucceeds : Bool)
    (retryAttempt : Outcome) : ForwardResult :=
  match firstAttempt with
  | .ok => ⟨.ok (), 0, s⟩
  | .transportError =>
    if s.tripped && s.attemptsRemaining != 0 then
      if spawnSucceeds then
        match retryAttempt with
        | .ok => ⟨.ok (), 1, armedState⟩
        | .transportError => ⟨.error (), 1, armedState⟩
      else ⟨.error (), 1, ⟨false, 0⟩⟩
    else ⟨.error (), 0, s⟩

mutual

/-- A node with every unlistable directory replaced by an empty one: the
file system as the scan effectively sees it. -/
def pruneNode : FSNode → FSNode
  | .file n => .file n
  | .dir n none => .dir n (some [])
  | .dir n (some l) => .dir n (some (pruneList l))

/-- `pruneNode` over a listing. -/
def pruneList : List FSNode → List FSNode
  | [] => []
  | e :: es => pruneNode e :: pruneList es

end

/-- `pruneNode` over a root listing: an unlistable root is an empty root. -/
def pruneListing : Option (List FSNode) → Option (List FSNode)
  | none => some []
  | some l => some (pruneList l)

/-- `pruneListing` over a queue item. -/
def pruneItem (it : QItem) : QItem :=
  ⟨it.path, pruneListing it.listing⟩

/-- The answer types the specification claims for configuration answers:
a boolean, an (enum) string, or null. -/
def isBoolStrOrNull : ConfigValue → Bool
  | .null => true
  | .bool _ => true
  | .str _ => true
  | .num _ => false

/-! ## Helper lemmas -/

theorem itemWeight_pos (it : QItem) : 1 ≤ itemWeight it := by
  cases it with
  | mk p l => cases l <;> simp [itemWeight]

theorem queueWeight_append (a b : List QItem) :
    queueWeight (a ++ b) = queueWeight a + queueWeight b := by
  induction a with
  | nil => simp [queueWeight]
  | cons it rest ih => simp [queueWeight, ih]; omega

theorem queueWeight_stepDirs (path : List String) (entries : List FSNode) :
    queueWeight (stepDirs path entries) ≤ listWeight entries := by
  induction entries with
  | nil => simp [stepDirs, queueWeight, listWeight]
  | cons e es ih =>
    cases e with
    | file n =>
      simp [stepDirs, List.filterMap] at ih ⊢
      simp [listWeight, nodeWeight]
      omega
    | dir n l =>
      by_cases h : pyStartsWith n "."
      · simp [stepDirs, List.filterMap, h] at ih ⊢
        simp [listWeight]
        omega
      · simp [stepDirs, List.filterMap, h] at ih ⊢
        cases l with
        | none => simp [queueWeight, itemWeight, listWeight, nodeWeight]; omega
        | some l' => simp [queueWeight, itemWeight, listWeight, nodeWeight]; omega

theorem stepFiles_mem {path : List String} {entries : List FSNode} {p : List String}
    (h : p ∈ stepFiles path entries) :
    ∃ nm, pyStartsWith nm "." = false ∧ p = path ++ [nm] := by
  obtain ⟨e, he, hfe⟩ := List.mem_filterMap.mp h
  cases e with
  | file n =>
    by_cases hd : pyStartsWith n "." = true
    · simp [hd] at hfe
    · simp [hd] at hfe
      exact ⟨n, by simpa using hd, hfe.symm⟩
  | dir n l => simp at hfe

theorem stepDirs_mem {path : List String} {entries : List FSNode} {it : QItem}
    (h : it ∈ stepDirs path entries) :
    ∃ nm l, pyStartsWith nm "." = false ∧ it = ⟨path ++ [nm], l⟩ := by
  obtain ⟨e, he, hfe⟩ := List.mem_filterMap.mp h
  cases e with
  | file n => simp at hfe
  | dir n l =>
    by_cases hd : pyStartsWith n "." = true
    · simp [hd] at hfe
    · simp [hd] at hfe
      exact ⟨n, l, by simpa using hd, hfe.symm⟩

/-- Soundness of the breadth-first scan: every yielded path extends the path
of some queued directory by a non-empty chain of non-hidden components.
Stated with an explicit bound on the queue weight so that induction on the
bound follows the loop. -/
theorem bfsAux_sound (n : Nat) :
    ∀ (q : List QItem), queueWeight q ≤ n →
      ∀ p ∈ bfsAux q, ∃ it ∈ q, ∃ suffix, p = it.path ++ suffix ∧ suffix ≠ [] ∧
        ∀ c ∈ suffix, pyStartsWith c "." = false := by
  induction n with
  | zero =>
    intro q hq p hp
    cases q with
    | nil => simp [bfsAux] at hp
    | cons it rest =>
      exfalso
      have := itemWeight_pos it
      simp [queueWeight] at hq
      omega
  | succ n ih =>
    intro q hq p hp
    cases q with
    | nil => simp [bfsAux] at hp
    | cons it rest =>
      obtain ⟨ipath, ilst⟩ := it
      cases ilst with
      | none =>
        rw [show bfsAux (⟨ipath, none⟩ :: rest) = bfsAux rest from by simp [bfsAux]] at hp
        have hw : queueWeight rest ≤ n := by
          simp [queueWeight, itemWeight] at hq; omega
        obtain ⟨it', hit', hs⟩ := ih rest hw p hp
        exact ⟨it', List.mem_cons_of_mem _ hit', hs⟩
      | some entries =>
        rw [show bfsAux (⟨ipath, some entries⟩ :: rest)
            = stepFiles ipath entries ++ bfsAux (rest ++ stepDirs ipath entries) from by
          simp [bfsAux]] at hp
        rcases List.mem_append.mp hp with hfile | hrec
        · obtain ⟨nm, hnm, rfl⟩ := stepFiles_mem hfile
          exact ⟨⟨ipath, some entries⟩, List.mem_cons_self _ _, [nm], rfl, by simp,
            by intro c hc; rcases List.mem_singleton.mp hc with rfl; exact hnm⟩
        · have hw : queueWeight (rest ++ stepDirs ipath entries) ≤ n := by
            have h1 := queueWeight_stepDirs ipath entries
            rw [queueWeight_append]
            simp [queueWeight, itemWeight] at hq
            omega
          obtain ⟨it', hit', suffix, hps, hne, hdot⟩ := ih _ hw p hrec
          rcases List.mem_append.mp hit' with hr | hd
          · exact ⟨it', List.mem_cons_of_mem _ hr, suffix, hps, hne, hdot⟩
          · obtain ⟨nm, l, hnm, rfl⟩ := stepDirs_mem hd
            refine ⟨⟨ipath, some entries⟩, List.mem_cons_self _ _, nm :: suffix, ?_, by simp, ?_⟩
            · simpa [List.append_assoc] using hps
            · intro c hc
              rcases List.mem_cons.mp hc with rfl | hcs
              exacts [hnm, hdot c hcs]

theorem stepFiles_pruneList (path : List String) (entries : List FSNode) :
    stepFiles path (pruneList entries) = stepFiles path entries := by
  induction entries with
  | nil => rfl
  | cons e es ih =>
    cases e with
    | file n => simp [pruneList, pruneNode, stepFiles, List.filterMap] at ih ⊢; rw [ih]
    | dir n l =>
      cases l <;>
        simp [pruneList, pruneNode, stepFiles, List.filterMap] at ih ⊢ <;> rw [ih]

theorem stepDirs_pruneList (path : List String) (entries : List FSNode) :
    stepDirs path (pruneList entries) = (stepDirs path entries).map pruneItem := by
  induction entries with
  | nil => rfl
  | cons e es ih =>
    cases e with
    | file n => simp [pruneList, pruneNode, stepDirs, List.filterMap] at ih ⊢; rw [ih]
    | dir n l =>
      by_cases hd : pyStartsWith n "." = true
      · cases l <;>
          simp [pruneList, pruneNode, stepDirs, List.filterMap, hd] at ih ⊢ <;> rw [ih]
      · cases l <;>
          simp [pruneList, pruneNode, stepDirs, List.filterMap, hd, pruneItem, pruneListing]
            at ih ⊢ <;> rw [ih]

/-- The scan never raises: replacing every unlistable directory by an empty
one leaves the scan's output unchanged, i.e. an unlistable directory is
skipped exactly as an empty one is. -/
theorem bfsAux_prune (n : Nat) :
    ∀ (q : List QItem), queueWeight q ≤ n → bfsAux (q.map pruneItem) = bfsAux q := by
  induction n with
  | zero =>
    intro q hq
    cases q with
    | nil => rfl
    | cons it rest =>
      exfalso
      have := itemWeight_pos it
      simp [queueWeight] at hq
      omega
  | succ n ih =>
    intro q hq
    cases q with
    | nil => rfl
    | cons it rest =>
      obtain ⟨ipath, ilst⟩ := it
      cases ilst with
      | none =>
        have hw : queueWeight rest ≤ n := by
          simp [queueWeight, itemWeight] at hq; omega
        calc bfsAux ((⟨ipath, none⟩ :: rest).map pruneItem)
            = bfsAux (⟨ipath, some []⟩ :: rest.map pruneItem) := by
              simp [pruneItem, pruneListing]
          _ = stepFiles ipath [] ++ bfsAux (rest.map pruneItem ++ stepDirs ipath []) := by
              simp [bfsAux]
          _ = bfsAux (rest.map pruneItem) := by simp [stepFiles, stepDirs]
          _ = bfsAux rest := ih rest hw
          _ = bfsAux (⟨ipath, none⟩ :: rest) := by simp [bfsAux]
      | some entries =>
        have hw : queueWeight (rest ++ stepDirs ipath entries) ≤ n := by
          have h1 := queueWeight_stepDirs ipath entries
          rw [queueWeight_append]
          simp [queueWeight, itemWeight] at hq
          omega
        calc bfsAux ((⟨ipath, some entries⟩ :: rest).map pruneItem)
            = bfsAux (⟨ipath, some (pruneList entries)⟩ :: rest.map pruneItem) := by
              simp [pruneItem, pruneListing]
          _ = stepFiles ipath (pruneList entries)
                ++ bfsAux (rest.map pruneItem ++ stepDirs ipath (pruneList entries)) := by
              simp [bfsAux]
          _ = stepFiles ipath entries
                ++ bfsAux ((rest ++ stepDirs ipath entries).map pruneItem) := by
              rw [stepFiles_pruneList, stepDirs_pruneList, List.map_append]
          _ = stepFiles ipath entries ++ bfsAux (rest ++ stepDirs ipath entries) := by
              rw [ih _ hw]
          _ = bfsAux (⟨ipath, some entries⟩ :: rest) := by simp [bfsAux]

/-- Closed form of the `find_solution_or_project_file` loop: the first
scanned `.sln` path if any, else the accumulator if set, else the first
scanned `.csproj` path. -/
theorem findLoop_eq (l : List (List String)) (c : Option (List String)) :
    findLoop l c =
      match l.find? (fun p => pathEndsWith p ".sln") with
      | some f => some f
      | none =>
        match c with
        | some q => some q
        | none => l.find? (fun p => pathEndsWith p ".csproj") := by
  induction l generalizing c with
  | nil => cases c <;> rfl
  | cons f rest ih =>
    by_cases hs : pathEndsWith f ".sln" = true
    · simp [findLoop, hs, List.find?_cons]
    · by_cases hc : pathEndsWith f ".csproj" = true
      · cases c <;> simp [findLoop, List.find?_cons, hs, hc, ih]
      · cases c <;> simp [findLoop, List.find?_cons, hs, hc, ih]

theorem find_solution_ends (rootPath : List String) (listing : Option (List FSNode))
    (p : List String) (h : find_solution_or_project_file rootPath listing = some p) :
    pathEndsWith p ".sln" = true ∨ pathEndsWith p ".csproj" = true := by
  rw [find_solution_or_project_file, findLoop_eq] at h
  cases hf : (breadth_first_file_scan rootPath listing).find? (fun q => pathEndsWith q ".sln") with
  | some f =>
    rw [hf] at h
    obtain rfl := Option.some.inj h
    exact Or.inl (by simpa using List.find?_some hf)
  | none =>
    rw [hf] at h
    exact Or.inr (by simpa using List.find?_some h)

theorem pyEndsWith_empty_sln : pyEndsWith "" ".sln" = false := by decide

theorem pyEndsWith_empty_csproj : pyEndsWith "" ".csproj" = false := by decide

theorem joinPath_ne_empty (p : List String) (n : String)
    (hl : p.getLast? = some n) (hn : n ≠ "") : joinPath p ≠ "" := by
  induction p with
  | nil => simp at hl
  | cons m rest ih =>
    cases rest with
    | nil =>
      simp at hl
      subst hl
      simpa [joinPath] using hn
    | cons m' rest' =>
      intro heq
      have hd : (m ++ "/" ++ joinPath (m' :: rest')).data = [] := by
        rw [show joinPath (m :: m' :: rest') = m ++ "/" ++ joinPath (m' :: rest') from rfl] at heq
        rw [heq]
      simp [String.data_append] at hd

/-- A discovered solution/project path is Python-truthy: it ends in `.sln`
or `.csproj`, so its final component — and hence its joined string — is
non-empty. -/
theorem find_solution_truthy (rootPath : List String) (listing : Option (List FSNode))
    (p : List String) (h : find_solution_or_project_file rootPath listing = some p) :
    joinPath p ≠ "" := by
  have hends := find_solution_ends rootPath listing p h
  cases hl : p.getLast? with
  | none =>
    exfalso
    rcases hends with he | he <;> (unfold pathEndsWith at he; rw [hl] at he; simp at he)
  | some n =>
    refine joinPath_ne_empty p n hl ?_
    rintro rfl
    rcases hends with he | he <;> unfold pathEndsWith at he <;> rw [hl] at he <;>
      simp only [] at he
    · exact absurd he (by rw [pyEndsWith_empty_sln]; simp)
    · exact absurd he (by rw [pyEndsWith_empty_csproj]; simp)

theorem missing_empty_iff (capabilities : List String) :
    (required_capabilities.filter (fun cap => !(capabilities.contains cap))).isEmpty = true ↔
      ∀ cap ∈ required_capabilities, cap ∈ capabilities := by
  simp [List.isEmpty_iff, List.filter_eq_nil_iff]

theorem configAnswerFor_shape (solution_or_project : Option (List String)) (s : String) :
    isBoolStrOrNull (configAnswerFor solution_or_project s) = true ∨
      ((s = "tab_width" ∨ s = "indent_size") ∧
        configAnswerFor solution_or_project s = .num 4) := by
  unfold configAnswerFor
  by_cases h1 : s = "csharp.solution"
  · rw [if_pos h1]
    left
    cases solution_or_project with
    | none => rfl
    | some p => by_cases hp : joinPath p != "" <;> simp [hp, isBoolStrOrNull]
  · rw [if_neg h1]
    by_cases h2 : (pyStartsWith s "dotnet" || pyStartsWith s "csharp") = true
    · rw [if_pos h2]
      left
      repeat' split
      all_goals rfl
    · rw [if_neg h2]
      by_cases h3 : (s = "tab_width" || s = "indent_size") = true
      · rw [if_pos h3]
        right
        exact ⟨by simpa using h3, rfl⟩
      · rw [if_neg h3]
        left
        split <;> rfl

/-! ## Claim theorems -/

/-- C1: for every originating request, the supervisor performs at most one
automatic restart-and-retry; a restart happens only when the first attempt
failed with a transport error while the watchdog was tripped and the retry
budget was unconsumed; a transport error without a prior signature match, or
with the budget consumed and no intervening successful spawn, propagates to
the caller with zero restarts; and the watchdog trips exactly on a
diagnostic line matching the recognized signature. -/
theorem handleRequest_at_most_one_retry (s : RetryState) (firstAttempt : Outcome)
    (spawnSucceeds : Bool) (retryAttempt : Outcome)
    (signatureMatches : String → Bool) (line : String) :
    (handleRequest s firstAttempt spawnSucceeds retryAttempt).restarts ≤ 1 ∧
    ((handleRequest s firstAttempt spawnSucceeds retryAttempt).restarts = 1 →
       s.tripped = true ∧ s.attemptsRemaining ≠ 0 ∧ firstAttempt = .transportError) ∧
    (firstAttempt = .transportError → (s.tripped = false ∨ s.attemptsRemaining = 0) →
       (handleRequest s firstAttempt spawnSucceeds retryAttempt).response = .error () ∧
       (handleRequest s firstAttempt spawnSucceeds retryAttempt).restarts = 0) ∧
    (watchdogOnLine signatureMatches s line).tripped = (s.tripped || signatureMatches line) := by
  have hw : (watchdogOnLine signatureMatches s line).tripped
      = (s.tripped || signatureMatches line) := by
    by_cases hm : signatureMatches line = true <;> simp [watchdogOnLine, hm]
  refine ⟨?_, ?_, ?_, hw⟩
  all_goals
    obtain ⟨tr, att⟩ := s
    cases firstAttempt <;> cases tr <;> cases att <;> cases retryAttempt <;>
      cases spawnSucceeds <;> simp [handleRequest, armedState]

/-- C1 witness: a tripped, unconsumed state retries exactly once; an
untripped state propagates the transport error with zero restarts. -/
theorem handleRequest_at_most_one_retry_witness :
    ((handleRequest ⟨true, 1⟩ .transportError true .ok).restarts ≤ 1) ∧
    ((handleRequest ⟨true, 1⟩ .transportError true .ok).restarts = 1 →
       (⟨true, 1⟩ : RetryState).tripped = true ∧
       (⟨true, 1⟩ : RetryState).attemptsRemaining ≠ 0 ∧
       Outcome.transportError = Outcome.transportError) ∧
    ((handleRequest ⟨false, 1⟩ .transportError true .ok).response = .error () ∧
     (handleRequest ⟨false, 1⟩ .transportError true .ok).restarts = 0) :=
  ⟨(handleRequest_at_most_one_retry ⟨true, 1⟩ .transportError true .ok (fun _ => false) "").1,
   (handleRequest_at_most_one_retry ⟨true, 1⟩ .transportError true .ok (fun _ => false) "").2.1,
   (handleRequest_at_most_one_retry ⟨false, 1⟩ .transportError true .ok (fun _ => false) "").2.2.1
     rfl (Or.inl rfl)⟩

/-- C2: after the initialize response, startup succeeds exactly when all
four required capabilities are present among the response's capability keys
(arbitrary extras allowed), and raises the handshake error when any one of
them is missing. -/
theorem finishStartup_capability_gate (capabilities : List String) :
    ((∀ cap ∈ required_capabilities, cap ∈ capabilities) →
        finishStartup capabilities =
          .ok [.notifyInitialized, .setInitializationComplete, .setCompletionsAvailable]) ∧
    ((∃ cap ∈ required_capabilities, cap ∉ capabilities) →
        ∃ msg, finishStartup capabilities = .error msg) := by
  constructor
  · intro h
    simp only [finishStartup]
    rw [if_pos ((missing_empty_iff capabilities).mpr h)]
  · rintro ⟨cap, hcap, hmem⟩
    simp only [finishStartup]
    rw [if_neg]
    · exact ⟨_, rfl⟩
    · intro hall
      exact hmem ((missing_empty_iff capabilities).mp hall cap hcap)

/-- C2 witness: all four capabilities plus an extra succeed; a response
missing `documentSymbolProvider` raises. -/
theorem finishStartup_capability_gate_witness :
    ((∀ cap ∈ required_capabilities, cap ∈
        ["textDocumentSync", "definitionProvider", "referencesProvider",
         "documentSymbolProvider", "hoverProvider"]) ∧
      finishStartup
        ["textDocumentSync", "definitionProvider", "referencesProvider",
         "documentSymbolProvider", "hoverProvider"] =
        .ok [.notifyInitialized, .setInitializationComplete, .setCompletionsAvailable]) ∧
    ((∃ cap ∈ required_capabilities,
        cap ∉ ["textDocumentSync", "definitionProvider", "referencesProvider"]) ∧
      ∃ msg, finishStartup ["textDocumentSync", "definitionProvider", "referencesProvider"]
        = .error msg) :=
  ⟨⟨by decide, (finishStartup_capability_gate _).1 (by decide)⟩,
   ⟨by decide, (finishStartup_capability_gate _).2 (by decide)⟩⟩

/-- C3 counterexample: in a root whose only `.sln` file lies inside a
dot-directory, a `.sln` file exists under the root, yet discovery returns
the `.csproj` file — the claim's "if at least one exists anywhere under the
root" does not hold of the code, which never descends into hidden
directories. -/
theorem find_solution_misses_hidden_sln :
    (∃ p ∈ allFilesList [] [.dir ".hidden" (some [.file "a.sln"]), .file "b.csproj"],
        pathEndsWith p ".sln" = true) ∧
    find_solution_or_project_file []
        (some [.dir ".hidden" (some [.file "a.sln"]), .file "b.csproj"])
      = some ["b.csproj"] ∧
    pathEndsWith ["b.csproj"] ".sln" = false := by
  refine ⟨⟨[".hidden", "a.sln"], by decide, by decide⟩, ?_, by decide⟩
  simp [find_solution_or_project_file, breadth_first_file_scan, bfsAux, stepFiles, stepDirs,
    findLoop, pathEndsWith, pyEndsWith, pyStartsWith]

/-- C3 (amended): for every root directory, discovery returns the first
`.sln` path yielded by the breadth-first scan if the scan yields any;
otherwise the first `.csproj` path yielded; otherwise none.  (The scan skips
dot-prefixed files and directories and unreadable directories, so "exists
anywhere under the root" had to be weakened to "is yielded by the scan".) -/
theorem find_solution_or_project_file_first_scanned (rootPath : List String)
    (listing : Option (List FSNode)) :
    find_solution_or_project_file rootPath listing =
      match (breadth_first_file_scan rootPath listing).find?
          (fun p => pathEndsWith p ".sln") with
      | some f => some f
      | none =>
        (breadth_first_file_scan rootPath listing).find?
          (fun p => pathEndsWith p ".csproj") := by
  rw [find_solution_or_project_file, findLoop_eq]

/-- C4: a request issued before the post-spawn grace deadline gets the
larger of the caller timeout and the remaining grace time and leaves the
window set; a request issued at or after the deadline gets exactly the
caller timeout and clears the window; with the window cleared every request
gets the caller timeout unmodified. -/
theorem forwardTimeout_grace_window (now gracePeriod t callerTimeout : Nat) :
    (t < now + gracePeriod →
       forwardTimeout (windowOnSpawn now gracePeriod) t callerTimeout =
         (max callerTimeout (now + gracePeriod - t), windowOnSpawn now gracePeriod)) ∧
    (¬ t < now + gracePeriod →
       forwardTimeout (windowOnSpawn now gracePeriod) t callerTimeout =
         (callerTimeout, ⟨none⟩)) ∧
    (∀ c : Nat, forwardTimeout ⟨none⟩ t c = (c, ⟨none⟩)) := by
  refine ⟨fun h => ?_, fun h => ?_, fun c => rfl⟩
  · simp [forwardTimeout, windowOnSpawn, h]
  · simp [forwardTimeout, windowOnSpawn, h]

/-- C4 witness: with deadline 150, a request at 120 asking 10 gets
`max 10 30`; a request at 200 gets exactly 10 and clears the window. -/
theorem forwardTimeout_grace_window_witness :
    (forwardTimeout (windowOnSpawn 100 50) 120 10
      = (max 10 (100 + 50 - 120), windowOnSpawn 100 50)) ∧
    (forwardTimeout (windowOnSpawn 100 50) 200 10 = (10, ⟨none⟩)) ∧
    (forwardTimeout ⟨none⟩ 200 10 = (10, ⟨none⟩)) :=
  ⟨(forwardTimeout_grace_window 100 50 120 10).1 (by decide),
   (forwardTimeout_grace_window 100 50 200 10).2.1 (by decide),
   (forwardTimeout_grace_window 100 50 200 10).2.2 10⟩

/-- C5: the initialized notification is sent and the ready events are set
exactly by a successful run, which requires the capability verification to
have succeeded (the notification preceding the ready events in the action
order); when verification fails, no action list is produced at all. -/
theorem finishStartup_ready_only_after_verification (capabilities : List String) :
    (∀ acts, finishStartup capabilities = .ok acts →
       (∀ cap ∈ required_capabilities, cap ∈ capabilities) ∧
       acts = [.notifyInitialized, .setInitializationComplete, .setCompletionsAvailable]) ∧
    ((∃ cap ∈ required_capabilities, cap ∉ capabilities) →
       ∀ acts, finishStartup capabilities ≠ .ok acts) := by
  constructor
  · intro acts hok
    simp only [finishStartup] at hok
    by_cases h : (required_capabilities.filter
        (fun cap => !(capabilities.contains cap))).isEmpty = true
    · rw [if_pos h] at hok
      exact ⟨(missing_empty_iff capabilities).mp h, (Except.ok.inj hok).symm⟩
    · rw [if_neg h] at hok
      exact absurd hok (by simp)
  · rintro ⟨cap, hcap, hmem⟩ acts hok
    simp only [finishStartup] at hok
    rw [if_neg (fun hall => hmem ((missing_empty_iff capabilities).mp hall cap hcap))] at hok
    exact absurd hok (by simp)

/-- C5 witness: a complete capability set yields the initialized/ready
actions; a response with only `textDocumentSync` yields no actions. -/
theorem finishStartup_ready_only_after_verification_witness :
    ((∀ cap ∈ required_capabilities,
        cap ∈ ["textDocumentSync", "definitionProvider", "referencesProvider",
               "documentSymbolProvider"]) ∧
      ([StartAction.notifyInitialized, .setInitializationComplete, .setCompletionsAvailable] =
        [StartAction.notifyInitialized, .setInitializationComplete, .setCompletionsAvailable])) ∧
    ((∃ cap ∈ required_capabilities, cap ∉ (["textDocumentSync"] : List String)) ∧
      finishStartup ["textDocumentSync"] ≠
        .ok [.notifyInitialized, .setInitializationComplete, .setCompletionsAvailable]) :=
  ⟨(finishStartup_ready_only_after_verification
      ["textDocumentSync", "definitionProvider", "referencesProvider",
       "documentSymbolProvider"]).1
      [.notifyInitialized, .setInitializationComplete, .setCompletionsAvailable] (by rfl),
   ⟨by decide,
    (finishStartup_ready_only_after_verification ["textDocumentSync"]).2 (by decide)
      [.notifyInitialized, .setInitializationComplete, .setCompletionsAvailable]⟩⟩

/-- C6: when the server binary cannot be resolved, construction raises the
acquisition error immediately — the binary lookup is the only step
performed, no spawn event occurs, and the lookup is attempted exactly
once (no retry). -/
theorem csharp_init_acquisition_failure (rootPath : List String)
    (listing : Option (List FSNode)) :
    csharp_init (none : Option String) rootPath listing =
      ([.whichLookup],
       .error "csharp-ls not found in PATH. Ensure it's installed globally via 'dotnet tool install --global csharp-ls'.") ∧
    ConstructionEvent.spawnSubprocess ∉ (csharp_init (none : Option String) rootPath listing).1 ∧
    (csharp_init (none : Option String) rootPath listing).1.count .whichLookup = 1 := by
  refine ⟨rfl, ?_, rfl⟩
  show ConstructionEvent.spawnSubprocess ∉ [ConstructionEvent.whichLookup]
  decide

/-- C7 counterexample: the `tab_width` item is answered with the integer 4,
which is neither a boolean, nor a string, nor null. -/
theorem configAnswer_tab_width_numeric :
    handle_workspace_configuration none [⟨some "tab_width"⟩] = [.num 4] ∧
    isBoolStrOrNull (.num 4) = false :=
  ⟨rfl, rfl⟩

/-- C7 (amended): every configuration answer is determined by the item's
settings-section name alone (given the discovered solution path), and every
answer is a boolean, a string, or null — except for the sections
`tab_width` and `indent_size`, which are answered with the integer 4. -/
theorem configAnswer_value_shape (solution_or_project : Option (List String))
    (item : ConfigItem) :
    (isBoolStrOrNull (configAnswer solution_or_project item) = true ∨
      ((item.sectionField.getD "" = "tab_width" ∨ item.sectionField.getD "" = "indent_size") ∧
        configAnswer solution_or_project item = .num 4)) ∧
    (∀ item' : ConfigItem, item.sectionField = item'.sectionField →
        configAnswer solution_or_project item = configAnswer solution_or_project item') := by
  constructor
  · exact configAnswerFor_shape solution_or_project (item.sectionField.getD "")
  · intro item' h
    unfold configAnswer
    rw [h]

/-- C7 witness: `insert_final_newline` is answered with a boolean; equal
section fields get equal answers. -/
theorem configAnswer_value_shape_witness :
    (isBoolStrOrNull (configAnswer none ⟨some "insert_final_newline"⟩) = true ∨
      (((⟨some "insert_final_newline"⟩ : ConfigItem).sectionField.getD "" = "tab_width" ∨
        (⟨some "insert_final_newline"⟩ : ConfigItem).sectionField.getD "" = "indent_size") ∧
        configAnswer none ⟨some "insert_final_newline"⟩ = .num 4)) ∧
    configAnswer none ⟨some "tab_width"⟩ = configAnswer none ⟨some "tab_width"⟩ :=
  ⟨(configAnswer_value_shape none ⟨some "insert_final_newline"⟩).1,
   (configAnswer_value_shape none ⟨some "tab_width"⟩).2 ⟨some "tab_width"⟩ rfl⟩

/-- C8: the configuration handler answers every request with exactly one
value per requested item, positionally (the i-th answer is the cascade
applied to the i-th item), returns the empty list for an empty request, and
answers an item with no section field with null; it is a total function, so
it never raises. -/
theorem handle_workspace_configuration_shape (solution_or_project : Option (List String))
    (items : List ConfigItem) :
    (handle_workspace_configuration solution_or_project items).length = items.length ∧
    (∀ i : Nat, (handle_workspace_configuration solution_or_project items)[i]? =
      (items[i]?).map (configAnswer solution_or_project)) ∧
    handle_workspace_configuration solution_or_project [] = [] ∧
    configAnswer solution_or_project ⟨none⟩ = ConfigValue.null := by
  refine ⟨by simp [handle_workspace_configuration], ?_, rfl, rfl⟩
  intro i
  simp [handle_workspace_configuration]

/-- C9: the initialize params carry the `initializationOptions` key exactly
when discovery found a solution or project file, and in that case the
`csharp.solution` field is exactly the discovered file's path. -/
theorem initializationOptions_iff_solution_found (repository_root_path : String)
    (rootPath : List String) (listing : Option (List FSNode)) :
    ((_get_initialize_params repository_root_path
        (find_solution_or_project_file rootPath listing)).initializationOptions.isSome
      ↔ (find_solution_or_project_file rootPath listing).isSome) ∧
    (∀ p, find_solution_or_project_file rootPath listing = some p →
       (_get_initialize_params repository_root_path
          (find_solution_or_project_file rootPath listing)).initializationOptions
         = some ⟨joinPath p, true⟩) := by
  constructor
  · cases hf : find_solution_or_project_file rootPath listing with
    | none => simp [_get_initialize_params]
    | some p =>
      have hne := find_solution_truthy rootPath listing p hf
      simp [_get_initialize_params, hne]
  · intro p hf
    have hne := find_solution_truthy rootPath listing p hf
    rw [hf]
    simp [_get_initialize_params, hne]

/-- C9 witness: a root containing `x.sln` produces initialization options
whose solution field is that path. -/
theorem initializationOptions_iff_solution_found_witness :
    ((_get_initialize_params "/repo"
        (find_solution_or_project_file [] (some [.file "x.sln"]))).initializationOptions.isSome
      ↔ (find_solution_or_project_file [] (some [.file "x.sln"])).isSome) ∧
    (_get_initialize_params "/repo"
        (find_solution_or_project_file [] (some [.file "x.sln"]))).initializationOptions
      = some ⟨joinPath ["x.sln"], true⟩ :=
  ⟨(initializationOptions_iff_solution_found "/repo" [] (some [.file "x.sln"])).1,
   (initializationOptions_iff_solution_found "/repo" [] (some [.file "x.sln"])).2 ["x.sln"]
     (by simp [find_solution_or_project_file, breadth_first_file_scan, bfsAux, stepFiles,
       stepDirs, findLoop, pathEndsWith, pyEndsWith, pyStartsWith])⟩

/-- C10: every path yielded by the breadth-first scan extends the root by a
non-empty chain of components none of which begins with a dot (so no hidden
file is yielded and no hidden directory is descended into), and the scan of
a tree equals the scan of the same tree with every unlistable directory
replaced by an empty one (unreadable directories are skipped, never
raised on); the scan is a total function, so it terminates on every root. -/
theorem breadth_first_file_scan_safety (rootPath : List String)
    (listing : Option (List FSNode)) :
    (∀ p ∈ breadth_first_file_scan rootPath listing,
       ∃ suffix, p = rootPath ++ suffix ∧ suffix ≠ [] ∧
         ∀ c ∈ suffix, pyStartsWith c "." = false) ∧
    breadth_first_file_scan rootPath listing
      = breadth_first_file_scan rootPath (pruneListing listing) := by
  constructor
  · intro p hp
    obtain ⟨it, hit, suffix, hs⟩ :=
      bfsAux_sound (queueWeight [⟨rootPath, listing⟩]) _ le_rfl p hp
    obtain rfl := List.mem_singleton.mp hit
    exact ⟨suffix, hs⟩
  · have h := bfsAux_prune (queueWeight [⟨rootPath, listing⟩]) [⟨rootPath, listing⟩] le_rfl
    simp only [List.map_cons, List.map_nil, pruneItem] at h
    exact h.symm

/-- C10 witness: a root with a plain file and an unlistable subdirectory
yields exactly the non-hidden file, and scanning it equals scanning its
pruned version. -/
theorem breadth_first_file_scan_safety_witness :
    (∃ suffix, (["root", "a.cs"] : List String) = ["root"] ++ suffix ∧ suffix ≠ [] ∧
       ∀ c ∈ suffix, pyStartsWith c "." = false) ∧
    breadth_first_file_scan ["root"] (some [.file "a.cs", .dir "sub" none])
      = breadth_first_file_scan ["root"]
          (pruneListing (some [.file "a.cs", .dir "sub" none])) :=
  ⟨(breadth_first_file_scan_safety ["root"] (some [.file "a.cs", .dir "sub" none])).1
      ["root", "a.cs"]
      (by simp [breadth_first_file_scan, bfsAux, stepFiles, stepDirs, pyStartsWith]),
   (breadth_first_file_scan_safety ["root"] (some [.file "a.cs", .dir "sub" none])).2⟩

end CSharpLS
